import Mathlib

/-!
Verification of the voice-session engine of the Hospital-Reception-Voice-Bot
repository.  Each section embeds one component of the source (the `App`
components in `src/App.tsx` and the variants in `src/unnamed/part_003` and
`src/unnamed/part_005`) as executable Lean definitions and proves the
specified properties about them.
-/

/-! ## FrameCodec: transport encoding (src/App.tsx lines 12-29)

`encode` turns a byte block into a base64 string via
`String.fromCharCode` on each byte followed by `btoa`; `decode` applies
`atob` and reads each character code back into a byte.  Characters are
modelled by their code points (`Nat`), so `String.fromCharCode` /
`charCodeAt` are the identity on byte values below 256 and the content of
the two functions is exactly base64 encoding and decoding of the byte
sequence.  `b64chr` maps a 6-bit group to the code point of its base64
alphabet character, `b64idx` is the reverse lookup; 61 is the code point
of the padding character. -/

def b64chr (n : Nat) : Nat :=
  if n < 26 then 65 + n
  else if n < 52 then 97 + (n - 26)
  else if n < 62 then 48 + (n - 52)
  else if n = 62 then 43
  else 47

def b64idx (c : Nat) : Nat :=
  if 65 ≤ c ∧ c ≤ 90 then c - 65
  else if 97 ≤ c ∧ c ≤ 122 then c - 97 + 26
  else if 48 ≤ c ∧ c ≤ 57 then c - 48 + 52
  else if c = 43 then 62
  else 63

/-- `btoa` on a binary string whose character codes are the bytes of the
input block: three bytes become four alphabet characters; a two-byte tail
becomes three characters plus one padding character; a one-byte tail
becomes two characters plus two padding characters. -/
def encode : List Nat → List Nat
  | a :: b :: c :: rest =>
      b64chr (a / 4) :: b64chr ((a % 4) * 16 + b / 16) ::
      b64chr ((b % 16) * 4 + c / 64) :: b64chr (c % 64) :: encode rest
  | [a, b] => [b64chr (a / 4), b64chr ((a % 4) * 16 + b / 16), b64chr ((b % 16) * 4), 61]
  | [a] => [b64chr (a / 4), b64chr ((a % 4) * 16), 61, 61]
  | [] => []

/-- `atob` followed by `charCodeAt` on every character of the decoded
binary string.  `atob` is only specified on well-formed base64 text (it
throws otherwise); the catch-all case returns the empty block and is
never reached on outputs of `encode`. -/
def decode : List Nat → List Nat
  | c1 :: c2 :: c3 :: c4 :: rest =>
      if c3 = 61 then
        [b64idx c1 * 4 + b64idx c2 / 16]
      else if c4 = 61 then
        [b64idx c1 * 4 + b64idx c2 / 16, b64idx c2 % 16 * 16 + b64idx c3 / 4]
      else
        (b64idx c1 * 4 + b64idx c2 / 16) :: (b64idx c2 % 16 * 16 + b64idx c3 / 4) ::
        (b64idx c3 % 4 * 64 + b64idx c4) :: decode rest
  | _ => []

theorem b64idx_b64chr_fin : ∀ n : Fin 64, b64idx (b64chr n.val) = n.val := by decide

theorem b64idx_b64chr {n : Nat} (h : n < 64) : b64idx (b64chr n) = n :=
  b64idx_b64chr_fin ⟨n, h⟩

theorem b64chr_ne_61 (n : Nat) : b64chr n ≠ 61 := by
  unfold b64chr
  split
  · omega
  · split
    · omega
    · split
      · omega
      · split <;> omega

/-- Claim C1: for every byte block x, decoding the transport encoding of x
returns x exactly: `decode (encode x) = x`, so the base64 round trip
through the wire format reproduces the int16-quantized sample data
losslessly. -/
theorem decode_encode_roundtrip :
    ∀ l : List Nat, (∀ b ∈ l, b < 256) → decode (encode l) = l := by
  intro l hl
  induction l using encode.induct with
  | case1 a b c rest ih =>
    have ha : a < 256 := hl a (by simp)
    have hb : b < 256 := hl b (by simp)
    have hc : c < 256 := hl c (by simp)
    rw [encode, decode]
    rw [if_neg (b64chr_ne_61 _), if_neg (b64chr_ne_61 _)]
    rw [b64idx_b64chr (by omega), b64idx_b64chr (by omega),
        b64idx_b64chr (by omega), b64idx_b64chr (by omega)]
    rw [ih (fun x hx => hl x (by simp [hx]))]
    congr 1
    · omega
    · congr 1
      · omega
      · congr 1
        omega
  | case2 a b =>
    have ha : a < 256 := hl a (by simp)
    have hb : b < 256 := hl b (by simp)
    rw [encode, decode]
    rw [if_neg (b64chr_ne_61 _), if_pos rfl]
    rw [b64idx_b64chr (by omega), b64idx_b64chr (by omega), b64idx_b64chr (by omega)]
    congr 1
    · omega
    · congr 1
      omega
  | case3 a =>
    have ha : a < 256 := hl a (by simp)
    rw [encode, decode]
    rw [if_pos rfl]
    rw [b64idx_b64chr (by omega), b64idx_b64chr (by omega)]
    congr 1
    omega
  | case4 => rfl

/-- Concrete instance of the round trip: the hypothesis holds for the block
`[0, 255, 16, 7, 200]` and decoding its encoding returns it unchanged. -/
theorem decode_encode_roundtrip_witness :
    (∀ b ∈ [0, 255, 16, 7, 200], b < 256) ∧
      decode (encode [0, 255, 16, 7, 200]) = [0, 255, 16, 7, 200] :=
  ⟨by decide, decode_encode_roundtrip [0, 255, 16, 7, 200] (by decide)⟩

/-! ## AudioPlaybackScheduler (src/App.tsx lines 266-279)

On each inbound audio chunk the handler executes
`nextStartTimeRef.current = Math.max(nextStartTimeRef.current, ctx.currentTime)`,
starts the decoded buffer at that time and then advances
`nextStartTimeRef.current += buffer.duration`.  A `Chunk` records the
value of `ctx.currentTime` observed when the chunk is processed and the
decoded buffer duration; `scheduleStarts` returns the scheduled start
time of every chunk, in arrival order, threading `nextStartTimeRef`. -/

structure Chunk where
  now : ℚ
  duration : ℚ
deriving DecidableEq

def scheduleStarts (nextStartTime : ℚ) : List Chunk → List ℚ
  | [] => []
  | c :: rest => max nextStartTime c.now :: scheduleStarts (max nextStartTime c.now + c.duration) rest

/-- Scheduled start of the i-th chunk (0 when out of range). -/
def startOf (nextStartTime : ℚ) (cs : List Chunk) (i : Nat) : ℚ :=
  (scheduleStarts nextStartTime cs).getD i 0

/-- Chunk at index i (zero chunk when out of range). -/
def chunkAt (cs : List Chunk) (i : Nat) : Chunk :=
  cs.getD i ⟨0, 0⟩

theorem startOf_ge_now :
    ∀ (cs : List Chunk) (ns : ℚ) (i : Nat), i < cs.length →
      (chunkAt cs i).now ≤ startOf ns cs i := by
  intro cs
  induction cs with
  | nil => intro ns i h; simp at h
  | cons c rest ih =>
    intro ns i h
    cases i with
    | zero => simp [startOf, chunkAt, scheduleStarts]
    | succ j =>
      have hj : j < rest.length := by simpa using h
      simpa [startOf, chunkAt, scheduleStarts] using
        ih (max ns c.now + c.duration) j hj

theorem startOf_succ :
    ∀ (cs : List Chunk) (ns : ℚ) (i : Nat), i + 1 < cs.length →
      startOf ns cs (i + 1) =
        max (startOf ns cs i + (chunkAt cs i).duration) ((chunkAt cs (i + 1)).now) := by
  intro cs
  induction cs with
  | nil => intro ns i h; simp at h
  | cons c rest ih =>
    intro ns i h
    cases i with
    | zero =>
      cases rest with
      | nil => simp at h
      | cons c1 rest1 => simp [startOf, chunkAt, scheduleStarts]
    | succ j =>
      have hj : j + 1 < rest.length := by simpa using h
      simpa [startOf, chunkAt, scheduleStarts] using
        ih (max ns c.now + c.duration) j hj

/-- Claim C2: playback start times are non-overlapping and never in the
past.  Each chunk starts no earlier than the time it was scheduled at
(`now`), each later chunk starts no earlier than the previous chunk's end,
and a chunk that arrives while the previous one is still playing starts
exactly at the previous chunk's end rather than at its own arrival
time. -/
theorem playback_schedule_invariant (ns : ℚ) (cs : List Chunk) (i : Nat)
    (h : i + 1 < cs.length) :
    startOf ns cs i + (chunkAt cs i).duration ≤ startOf ns cs (i + 1) ∧
    (chunkAt cs (i + 1)).now ≤ startOf ns cs (i + 1) ∧
    (chunkAt cs i).now ≤ startOf ns cs i ∧
    ((chunkAt cs (i + 1)).now ≤ startOf ns cs i + (chunkAt cs i).duration →
      startOf ns cs (i + 1) = startOf ns cs i + (chunkAt cs i).duration) := by
  have hkey := startOf_succ cs ns i h
  refine ⟨?_, ?_, ?_, ?_⟩
  · rw [hkey]; exact le_max_left _ _
  · rw [hkey]; exact le_max_right _ _
  · exact startOf_ge_now cs ns i (by omega)
  · intro hle
    rw [hkey]
    exact max_eq_left hle

/-- Concrete instance: inbound chunks of duration 1/2 then 3/10 where the
second arrives (at now = 2/5) while the first is still playing; the second
chunk starts exactly at the end of the first (1/2), not at 2/5. -/
theorem playback_schedule_invariant_witness :
    0 + 1 < ([⟨0, 1/2⟩, ⟨2/5, 3/10⟩] : List Chunk).length ∧
      (startOf 0 [⟨0, 1/2⟩, ⟨2/5, 3/10⟩] 0 + (chunkAt [⟨0, 1/2⟩, ⟨2/5, 3/10⟩] 0).duration ≤
          startOf 0 [⟨0, 1/2⟩, ⟨2/5, 3/10⟩] 1 ∧
        (chunkAt [⟨0, 1/2⟩, ⟨2/5, 3/10⟩] 1).now ≤ startOf 0 [⟨0, 1/2⟩, ⟨2/5, 3/10⟩] 1 ∧
        (chunkAt [⟨0, 1/2⟩, ⟨2/5, 3/10⟩] 0).now ≤ startOf 0 [⟨0, 1/2⟩, ⟨2/5, 3/10⟩] 0 ∧
        ((chunkAt [⟨0, 1/2⟩, ⟨2/5, 3/10⟩] 1).now ≤
            startOf 0 [⟨0, 1/2⟩, ⟨2/5, 3/10⟩] 0 + (chunkAt [⟨0, 1/2⟩, ⟨2/5, 3/10⟩] 0).duration →
          startOf 0 [⟨0, 1/2⟩, ⟨2/5, 3/10⟩] 1 =
            startOf 0 [⟨0, 1/2⟩, ⟨2/5, 3/10⟩] 0 + (chunkAt [⟨0, 1/2⟩, ⟨2/5, 3/10⟩] 0).duration)) :=
  ⟨by decide, playback_schedule_invariant 0 [⟨0, 1/2⟩, ⟨2/5, 3/10⟩] 0 (by decide)⟩

/-! ## Action log (src/App.tsx lines 65-70)

`addLog` prepends the new entry and keeps only `prev.slice(0, 49)` of the
previous entries: `setLogs(prev => [newEntry, ...prev.slice(0, 49)])`. -/

inductive LogKind
  | tool
  | info
  | error
deriving DecidableEq

structure LogEntry where
  message : String
  kind : LogKind
deriving DecidableEq

def addLog (e : LogEntry) (prev : List LogEntry) : List LogEntry :=
  e :: prev.take 49

/-- Claim C9: after every `addLog` call the new entry is at the head, at
most 49 previous entries are retained (everything older is discarded), and
the resulting list never exceeds 50 entries, regardless of the length of
the previous list. -/
theorem addLog_bounded_newest_first (e : LogEntry) (prev : List LogEntry) :
    (addLog e prev).head? = some e ∧
    (addLog e prev).tail = prev.take 49 ∧
    (addLog e prev).length ≤ 50 := by
  refine ⟨rfl, rfl, ?_⟩
  have h : (prev.take 49).length ≤ 49 := List.length_take_le 49 prev
  simp only [addLog, List.length_cons]
  omega

/-! ## Capture-side float to int16 conversion (src/App.tsx lines 233-241)

`scriptProcessor.onaudioprocess` executes `int16[i] = inputData[i] * 32768`
on an `Int16Array`.  Storing a JavaScript number into an `Int16Array`
applies ToInt16: truncate toward zero, reduce modulo 2^16 to a
non-negative residue, then reinterpret residues at or above 2^15 as
negative.  Multiplying a float sample in [-1, 1] by 32768 (a power of
two) is exact, so rational samples model the computation faithfully. -/

def truncQ (q : ℚ) : ℤ :=
  if 0 ≤ q then ⌊q⌋ else ⌈q⌉

def toInt16 (t : ℤ) : ℤ :=
  if 32768 ≤ t % 65536 then t % 65536 - 65536 else t % 65536

def sampleToWire (v : ℚ) : ℤ :=
  toInt16 (truncQ (v * 32768))

theorem toInt16_eq_of_range {t : ℤ} (h1 : -32768 ≤ t) (h2 : t ≤ 32767) :
    toInt16 t = t := by
  unfold toInt16
  split <;> omega

theorem truncQ_bounds {x : ℚ} (h1 : -32768 ≤ x) (h2 : x ≤ 32767) :
    -32768 ≤ truncQ x ∧ truncQ x ≤ 32767 := by
  unfold truncQ
  split
  · constructor
    · have : (0 : ℤ) ≤ ⌊x⌋ := Int.floor_nonneg.mpr (by assumption)
      omega
    · have h : ⌊x⌋ ≤ ⌊(32767 : ℚ)⌋ := Int.floor_le_floor h2
      have h327 : ⌊(32767 : ℚ)⌋ = 32767 := by norm_num
      omega
  · constructor
    · have h : ⌈(-32768 : ℚ)⌉ ≤ ⌈x⌉ := Int.ceil_le_ceil h1
      have hm : ⌈(-32768 : ℚ)⌉ = -32768 := by
        rw [show (-32768 : ℚ) = ((-32768 : ℤ) : ℚ) by norm_num, Int.ceil_intCast]
      omega
    · have hx : x ≤ 0 := by linarith [not_le.mp (by assumption : ¬ 0 ≤ x)]
      have h : ⌈x⌉ ≤ ⌈(0 : ℚ)⌉ := Int.ceil_le_ceil hx
      have h0 : ⌈(0 : ℚ)⌉ = 0 := by norm_num
      omega

/-- Claim C10: the capture-side conversion computes `v * 32768` with
wrap-around modulo 2^16 rather than saturating: for every sample `v` in
`[-1, 32767/32768]` the wire sample is the truncation of `v * 32768`
toward zero, while the full-scale sample `v = 1` wraps to `-32768`
instead of clamping to `32767`. -/
theorem sampleToWire_trunc_and_wrap :
    (∀ v : ℚ, -1 ≤ v → v ≤ 32767 / 32768 → sampleToWire v = truncQ (v * 32768)) ∧
      sampleToWire 1 = -32768 := by
  constructor
  · intro v h1 h2
    have hlo : (-32768 : ℚ) ≤ v * 32768 := by nlinarith
    have hhi : v * 32768 ≤ 32767 := by nlinarith
    obtain ⟨b1, b2⟩ := truncQ_bounds hlo hhi
    unfold sampleToWire
    exact toInt16_eq_of_range b1 b2
  · have h : truncQ ((1 : ℚ) * 32768) = 32768 := by
      unfold truncQ
      norm_num
    unfold sampleToWire
    rw [h]
    unfold toInt16
    norm_num

/-- Concrete instance: the in-range sample `v = -1` maps to the truncation
of `-32768`, i.e. the conversion is the plain truncated product inside the
representable range. -/
theorem sampleToWire_trunc_and_wrap_witness :
    (-1 : ℚ) ≤ -1 ∧ (-1 : ℚ) ≤ 32767 / 32768 ∧
      sampleToWire (-1) = truncQ ((-1) * 32768) :=
  ⟨by norm_num, by norm_num,
    sampleToWire_trunc_and_wrap.1 (-1) (by norm_num) (by norm_num)⟩

/-! ## Session lifecycle

Two variants are embedded.  `V1State` / `stopAssistantV1` /
`startAssistantV1` model the first `App` component of `src/App.tsx`
(stop: lines 84-105, start: lines 197-318).  `P3State` /
`stopAssistant3` / `startAssistant3` model `src/unnamed/part_003`
(stop: lines 142-203, start: lines 256-390).  React state setters are
treated as immediate field updates; the `onopen` callback of a
successful connection is collapsed into the sequential success path of
`start`.  Every externally visible release or acquisition is recorded in
an `Act` trace so that "the release sequence runs at most once" is a
statement about the trace, not only about the final state.  Strings of
the original log messages are kept where they contain no special
characters and abbreviated otherwise. -/

inductive BotState
  | idle
  | listening
  | speaking
  | processing
deriving DecidableEq

inductive Res
  | inputCtx
  | outputCtx
  | mic
  | transport
  | heartbeatTimer
deriving DecidableEq

inductive Act
  | acquire (r : Res)
  | release (r : Res)
  | resumeCtx
  | micDenied
  | closeSession
  | stopSource
  | disconnectProcessor
  | saveSummary
deriving DecidableEq

structure V1State where
  patient : Bool
  isActive : Bool
  isEmergency : Bool
  error : Option String
  botState : BotState
  heartbeat : Option Nat
  session : Option Nat
  inCtx : Option Nat
  outCtx : Option Nat
  nextStartTime : ℚ
  sources : List Nat
  logs : List LogEntry
deriving DecidableEq

/-- `stopAssistant` of the first `App` variant (src/App.tsx 84-105):
clears the heartbeat interval, closes the session and both audio
contexts when present, nulls the refs, deactivates, sets the phase to
idle and logs.  It does not touch `sourcesRef` or `nextStartTimeRef`. -/
def stopAssistantV1 (s : V1State) : V1State × List Act :=
  let a1 : List Act := match s.heartbeat with
    | some _ => [.release .heartbeatTimer]
    | none => []
  let a2 : List Act := match s.session with
    | some _ => [.closeSession]
    | none => []
  let a3 : List Act := match s.inCtx with
    | some _ => [.release .inputCtx]
    | none => []
  let a4 : List Act := match s.outCtx with
    | some _ => [.release .outputCtx]
    | none => []
  ({ s with heartbeat := none, session := none, inCtx := none, outCtx := none,
            isActive := false, botState := .idle,
            logs := addLog ⟨"Call disconnected.", .info⟩ s.logs },
   a1 ++ a2 ++ a3 ++ a4)

/-- `startAssistant` of the first `App` variant (src/App.tsx 197-318).
There is no guard against an already-active session: after the
`!patient` check it immediately activates, sets the phase to processing,
creates and resumes both audio contexts (overwriting the refs), then
requests the microphone.  On permission denial the catch path sets the
error, deactivates and calls `stopAssistant`.  On success the connection
opens and `onopen` sets the phase to listening and starts the heartbeat
interval; the fresh handles are the `fIn fOut fSes fHb` parameters. -/
def startAssistantV1 (perm : Bool) (fIn fOut fSes fHb : Nat) (s : V1State) :
    V1State × List Act :=
  if s.patient = false then (s, []) else
  let s1 : V1State :=
    { s with error := none, isEmergency := false, isActive := true,
             botState := .processing,
             logs := addLog ⟨"Starting Voice Session...", .info⟩ s.logs,
             inCtx := some fIn, outCtx := some fOut }
  let pre : List Act := [.acquire .inputCtx, .acquire .outputCtx, .resumeCtx]
  if perm then
    ({ s1 with botState := .listening,
               logs := addLog ⟨"Maya is online.", .info⟩ s1.logs,
               session := some fSes, heartbeat := some fHb },
     pre ++ [.acquire .mic, .acquire .transport, .acquire .heartbeatTimer])
  else
    let s2 := { s1 with error := some "PermissionError", isActive := false }
    let r := stopAssistantV1 s2
    (r.1, pre ++ [.micDenied] ++ r.2)

structure P3State where
  patient : Bool
  isActive : Bool
  isStarting : Bool
  hangupPending : Bool
  isEmergency : Bool
  error : Option String
  botState : BotState
  heartbeat : Option Nat
  sources : List Nat
  scriptProcessor : Option Nat
  mediaStream : Option Nat
  session : Option Nat
  inCtx : Option Nat
  outCtx : Option Nat
  nextStartTime : ℚ
  callStart : Option Nat
  transcript : List String
  logs : List LogEntry
deriving DecidableEq

/-- `stopAssistant` of `src/unnamed/part_003` (lines 142-203).  Guarded:
`if (!isActive && !isStartingRef.current) return;`.  Otherwise it saves
the call summary, clears the interval, stops every tracked source,
disconnects the script processor, stops the microphone tracks, closes the
socket and both audio contexts, and resets all refs and state. -/
def stopAssistant3 (techIssue : Bool) (s : P3State) : P3State × List Act :=
  if s.isActive = false ∧ s.isStarting = false then (s, []) else
  let a1 : List Act := match s.heartbeat with
    | some _ => [.release .heartbeatTimer]
    | none => []
  let a2 : List Act := s.sources.map fun _ => .stopSource
  let a3 : List Act := match s.scriptProcessor with
    | some _ => [.disconnectProcessor]
    | none => []
  let a4 : List Act := match s.mediaStream with
    | some _ => [.release .mic]
    | none => []
  let a5 : List Act := match s.session with
    | some _ => [.closeSession]
    | none => []
  let a6 : List Act := match s.inCtx with
    | some _ => [.release .inputCtx]
    | none => []
  let a7 : List Act := match s.outCtx with
    | some _ => [.release .outputCtx]
    | none => []
  ({ s with heartbeat := none, sources := [], scriptProcessor := none,
            mediaStream := none, session := none, inCtx := none, outCtx := none,
            isActive := false, botState := .idle, isStarting := false,
            hangupPending := false, callStart := none, nextStartTime := 0,
            transcript := [],
            logs := addLog ⟨"Call disconnected.", if techIssue then .error else .info⟩ s.logs },
   .saveSummary :: (a1 ++ a2 ++ a3 ++ a4 ++ a5 ++ a6 ++ a7))

/-- `startAssistant` of `src/unnamed/part_003` (lines 256-390).  Guarded:
`if (!patient || isStartingRef.current) return;`; a lingering active
session is first stopped; then the start flag is set and the acquisition
sequence runs (contexts, resume, microphone, transport; `onopen` sets the
call start time, phase listening, heartbeat interval and script
processor).  On failure the catch path sets the error and calls
`stopAssistant(true)`. -/
def startAssistant3 (perm : Bool) (fIn fOut fMs fSes fHb fSp : Nat) (s : P3State) :
    P3State × List Act :=
  if s.patient = false ∨ s.isStarting = true then (s, []) else
  let r0 := if s.isActive = true then stopAssistant3 false s else (s, [])
  let s1 : P3State :=
    { r0.1 with isStarting := true, error := none, isEmergency := false,
                isActive := true, botState := .processing,
                inCtx := some fIn, outCtx := some fOut }
  let pre : List Act := r0.2 ++ [.acquire .inputCtx, .acquire .outputCtx, .resumeCtx]
  if perm then
    ({ s1 with mediaStream := some fMs, callStart := some 0, botState := .listening,
               heartbeat := some fHb, scriptProcessor := some fSp,
               session := some fSes },
     pre ++ [.acquire .mic, .acquire .transport, .acquire .heartbeatTimer])
  else
    let s2 := { s1 with error := some "PermissionError" }
    let r := stopAssistant3 true s2
    (r.1, pre ++ [.micDenied] ++ r.2)

/-- Claim C3: `stop` is idempotent.  In the part_003 variant a second
call (with either reason) is a complete no-op: it returns the state of
the first call unchanged and performs no release action.  In the first
App variant a second call performs no release action and leaves every
handle, timer, tracked buffer and the phase unchanged (only the action
log receives another entry). -/
theorem stop_idempotent :
    (∀ (t1 t2 : Bool) (s : P3State),
      stopAssistant3 t2 (stopAssistant3 t1 s).1 = ((stopAssistant3 t1 s).1, [])) ∧
    (∀ s : V1State,
      (stopAssistantV1 (stopAssistantV1 s).1).2 = [] ∧
      (stopAssistantV1 (stopAssistantV1 s).1).1.heartbeat = (stopAssistantV1 s).1.heartbeat ∧
      (stopAssistantV1 (stopAssistantV1 s).1).1.session = (stopAssistantV1 s).1.session ∧
      (stopAssistantV1 (stopAssistantV1 s).1).1.inCtx = (stopAssistantV1 s).1.inCtx ∧
      (stopAssistantV1 (stopAssistantV1 s).1).1.outCtx = (stopAssistantV1 s).1.outCtx ∧
      (stopAssistantV1 (stopAssistantV1 s).1).1.sources = (stopAssistantV1 s).1.sources ∧
      (stopAssistantV1 (stopAssistantV1 s).1).1.isActive = (stopAssistantV1 s).1.isActive ∧
      (stopAssistantV1 (stopAssistantV1 s).1).1.botState = (stopAssistantV1 s).1.botState) := by
  constructor
  · intro t1 t2 s
    by_cases h : s.isActive = false ∧ s.isStarting = false
    · simp [stopAssistant3, h]
    · simp [stopAssistant3, h]
  · intro s
    simp [stopAssistantV1]

/-- A live session in the first App variant, used as the concrete
existing-session state for claim C4. -/
def liveV1 : V1State where
  patient := true
  isActive := true
  isEmergency := false
  error := none
  botState := .listening
  heartbeat := some 1
  session := some 1
  inCtx := some 1
  outCtx := some 2
  nextStartTime := 0
  sources := []
  logs := []

/-- Counterexample to claim C4 as stated: in the first App variant
(src/App.tsx 197-207) `startAssistant` has no guard against an active
session.  Called while the session `liveV1` is live (with the microphone
granted), it overwrites the session handle and the audio-context refs and
performs fresh acquisitions, so the existing session is mutated rather
than left untouched. -/
theorem startAssistantV1_mutates_live_session :
    (startAssistantV1 true 10 11 12 13 liveV1).1.session ≠ liveV1.session ∧
    (startAssistantV1 true 10 11 12 13 liveV1).1.inCtx ≠ liveV1.inCtx ∧
    (startAssistantV1 true 10 11 12 13 liveV1).2 ≠ [] := by
  decide

/-- Claim C4 (amended): in the part_003 variant, `startAssistant` returns
immediately with no mutation and no acquisition whenever the
`isStartingRef` flag is set, and both operations preserve the invariant
that an active session implies that flag, so a start call during a live
session fails fast there.  The first App variant has no such guard and
mutates the live session (see the counterexample). -/
theorem startAssistant3_fails_fast_when_starting :
    (∀ (perm : Bool) (a b c d e f : Nat) (s : P3State), s.isStarting = true →
      startAssistant3 perm a b c d e f s = (s, [])) ∧
    (∀ (perm : Bool) (a b c d e f : Nat) (s : P3State),
      (s.isActive = true → s.isStarting = true) →
      ((startAssistant3 perm a b c d e f s).1.isActive = true →
        (startAssistant3 perm a b c d e f s).1.isStarting = true)) ∧
    (∀ (t : Bool) (s : P3State),
      ((stopAssistant3 t s).1.isActive = true →
        (stopAssistant3 t s).1.isStarting = true)) := by
  refine ⟨?_, ?_, ?_⟩
  · intro perm a b c d e f s h
    simp [startAssistant3, h]
  · intro perm a b c d e f s hinv
    by_cases hg : s.patient = false ∨ s.isStarting = true
    · simp only [startAssistant3, if_pos hg]
      exact hinv
    · have hs : s.isStarting = false := by
        cases hb : s.isStarting
        · rfl
        · exact absurd (Or.inr hb) hg
      have ha : s.isActive = false := by
        cases hb : s.isActive
        · rfl
        · exact absurd (hinv hb) (by simp [hs])
      cases perm with
      | true => simp [startAssistant3, hg, ha]
      | false => simp [startAssistant3, hg, ha, stopAssistant3]
  · intro t s
    by_cases h : s.isActive = false ∧ s.isStarting = false
    · simp only [stopAssistant3, if_pos h]
      intro hA
      rw [h.1] at hA
      simp at hA
    · simp [stopAssistant3, h]

/-- A state of the part_003 variant with a live session (the start flag
is still set, as it is after every successful start and is cleared only
by `stopAssistant`). -/
def liveP3 : P3State where
  patient := true
  isActive := true
  isStarting := true
  hangupPending := false
  isEmergency := false
  error := none
  botState := .listening
  heartbeat := some 1
  sources := []
  scriptProcessor := some 1
  mediaStream := some 1
  session := some 1
  inCtx := some 1
  outCtx := some 2
  nextStartTime := 0
  callStart := some 0
  transcript := []
  logs := []

/-- Concrete instance: calling part_003 `startAssistant` on the live
session `liveP3` returns it unchanged with no actions. -/
theorem startAssistant3_fails_fast_when_starting_witness :
    liveP3.isStarting = true ∧
      startAssistant3 true 1 2 3 4 5 6 liveP3 = (liveP3, []) :=
  ⟨rfl, startAssistant3_fails_fast_when_starting.1 true 1 2 3 4 5 6 liveP3 rfl⟩

/-- An idle state of the first App variant with a patient selected, used
as the concrete starting point for claim C8. -/
def idleV1 : V1State where
  patient := true
  isActive := false
  isEmergency := false
  error := none
  botState := .idle
  heartbeat := none
  session := none
  inCtx := none
  outCtx := none
  nextStartTime := 0
  sources := []
  logs := []

/-- Counterexample to claim C8 as stated: in the first App variant both
audio contexts are created (and resumed) before `getUserMedia` requests
the microphone, so when permission is denied the failure does not occur
before any other resource is acquired — an input-context acquisition
already precedes the denial in the trace. -/
theorem startAssistantV1_acquires_before_denial :
    Act.acquire Res.inputCtx ∈
      ((startAssistantV1 false 10 11 12 13 idleV1).2.takeWhile
        (fun a => a ≠ Act.micDenied)) := by
  decide

/-- Claim C8 (amended): if microphone permission is denied, `start` in
the first App variant fails with no transport ever opened, no microphone
and no heartbeat timer acquired, the phase back at idle, the session
inactive, and both audio contexts — which were created before the
permission check — released again by the catch-path teardown. -/
theorem start_permission_denied_teardown (fIn fOut fSes fHb : Nat)
    (s : V1State) (hp : s.patient = true) :
    (startAssistantV1 false fIn fOut fSes fHb s).1.botState = .idle ∧
    (startAssistantV1 false fIn fOut fSes fHb s).1.isActive = false ∧
    (startAssistantV1 false fIn fOut fSes fHb s).1.session = none ∧
    (startAssistantV1 false fIn fOut fSes fHb s).1.heartbeat = none ∧
    (startAssistantV1 false fIn fOut fSes fHb s).1.inCtx = none ∧
    (startAssistantV1 false fIn fOut fSes fHb s).1.outCtx = none ∧
    Act.acquire Res.transport ∉ (startAssistantV1 false fIn fOut fSes fHb s).2 ∧
    Act.acquire Res.heartbeatTimer ∉ (startAssistantV1 false fIn fOut fSes fHb s).2 ∧
    Act.acquire Res.mic ∉ (startAssistantV1 false fIn fOut fSes fHb s).2 ∧
    Act.release Res.inputCtx ∈ (startAssistantV1 false fIn fOut fSes fHb s).2 ∧
    Act.release Res.outputCtx ∈ (startAssistantV1 false fIn fOut fSes fHb s).2 := by
  cases hh : s.heartbeat <;> cases hs : s.session <;>
    simp [startAssistantV1, stopAssistantV1, hp, hh, hs]

/-- Concrete instance of the amended claim C8, starting from the idle
state with permission denied. -/
theorem start_permission_denied_teardown_witness :
    idleV1.patient = true ∧
      ((startAssistantV1 false 10 11 12 13 idleV1).1.botState = .idle ∧
       (startAssistantV1 false 10 11 12 13 idleV1).1.isActive = false ∧
       (startAssistantV1 false 10 11 12 13 idleV1).1.session = none ∧
       (startAssistantV1 false 10 11 12 13 idleV1).1.heartbeat = none ∧
       (startAssistantV1 false 10 11 12 13 idleV1).1.inCtx = none ∧
       (startAssistantV1 false 10 11 12 13 idleV1).1.outCtx = none ∧
       Act.acquire Res.transport ∉ (startAssistantV1 false 10 11 12 13 idleV1).2 ∧
       Act.acquire Res.heartbeatTimer ∉ (startAssistantV1 false 10 11 12 13 idleV1).2 ∧
       Act.acquire Res.mic ∉ (startAssistantV1 false 10 11 12 13 idleV1).2 ∧
       Act.release Res.inputCtx ∈ (startAssistantV1 false 10 11 12 13 idleV1).2 ∧
       Act.release Res.outputCtx ∈ (startAssistantV1 false 10 11 12 13 idleV1).2) :=
  ⟨rfl, start_permission_denied_teardown 10 11 12 13 idleV1 rfl⟩

/-! ## ToolDispatcher

Two variants are embedded.  `dispatchToolCallsV1` models the tool-call
loop of the first App variant (src/App.tsx 281-288):
`await (toolHandlers as any)[fc.name]?.(fc.args)` followed by an
unconditional `sendToolResponse` — an unregistered name yields an
undefined result but still one response, while a handler that throws
aborts the async message handler, so neither that invocation nor the
rest of the batch gets a response.  `dispatchToolCallsP5` models
src/unnamed/part_005 (263-277), which skips empty names, silently skips
unregistered names, and likewise aborts on a throwing handler.  A
handler is summarised by the outcome of its invocation. -/

structure FunctionCall where
  id : String
  name : String
deriving DecidableEq

inductive ToolOutcome
  | ok (payload : String)
  | thrown (msg : String)
deriving DecidableEq

structure ToolResponse where
  id : String
  name : String
  result : Option String
deriving DecidableEq

def dispatchToolCallsV1 (handlers : String → Option ToolOutcome) :
    List FunctionCall → List ToolResponse
  | [] => []
  | fc :: rest =>
    match handlers fc.name with
    | none => ⟨fc.id, fc.name, none⟩ :: dispatchToolCallsV1 handlers rest
    | some (.ok v) => ⟨fc.id, fc.name, some v⟩ :: dispatchToolCallsV1 handlers rest
    | some (.thrown _) => []

def dispatchToolCallsP5 (handlers : String → Option ToolOutcome) :
    List FunctionCall → List ToolResponse
  | [] => []
  | fc :: rest =>
    if fc.name = "" then dispatchToolCallsP5 handlers rest
    else
      match handlers fc.name with
      | none => dispatchToolCallsP5 handlers rest
      | some (.ok v) => ⟨fc.id, fc.name, some v⟩ :: dispatchToolCallsP5 handlers rest
      | some (.thrown _) => []

/-- Counterexample to claim C5 as stated: in the part_005 dispatcher an
invocation whose tool name is not in the registry is silently skipped, so
no tool result carrying its id is ever sent — the number of responses
with id t1 is 0, not 1. -/
theorem dispatch_unknown_tool_drops_result :
    dispatchToolCallsP5 (fun _ => none) [⟨"t1", "unknown_tool"⟩] = [] ∧
    ((dispatchToolCallsP5 (fun _ => none) [⟨"t1", "unknown_tool"⟩]).filter
        (fun r => r.id = "t1")).length ≠ 1 := by
  constructor
  · rfl
  · simp [dispatchToolCallsP5]

theorem filter_map_id_length :
    ∀ (resps : List ToolResponse) (i : String),
      (resps.filter (fun r => r.id = i)).length =
        ((resps.map ToolResponse.id).filter (fun x => x = i)).length := by
  intro resps i
  induction resps with
  | nil => rfl
  | cons r t ih =>
    by_cases h : r.id = i <;> simp [List.filter_cons, h, ih]

theorem filter_id_count_one :
    ∀ (l : List String) (i : String), l.Nodup → i ∈ l →
      (l.filter (fun x => x = i)).length = 1 := by
  intro l
  induction l with
  | nil => intro i _ hm; cases hm
  | cons a t ih =>
    intro i hn hm
    have hat : a ∉ t := (List.nodup_cons.mp hn).1
    rcases List.mem_cons.mp hm with h | h
    · subst h
      have hnil : t.filter (fun x => x = i) = [] := by
        rw [List.filter_eq_nil_iff]
        intro x hx
        simp only [decide_eq_true_eq]
        intro hxi
        exact hat (hxi ▸ hx)
      simp [List.filter_cons, hnil]
    · have hai : ¬ (a = i) := fun he => hat (he ▸ h)
      have ht := ih i (List.nodup_cons.mp hn).2 h
      simp [List.filter_cons, hai, ht]

theorem dispatchV1_ids :
    ∀ (handlers : String → Option ToolOutcome) (batch : List FunctionCall),
      (∀ fc ∈ batch, ∀ m, handlers fc.name ≠ some (.thrown m)) →
      (dispatchToolCallsV1 handlers batch).map ToolResponse.id =
          batch.map FunctionCall.id ∧
        (dispatchToolCallsV1 handlers batch).map ToolResponse.name =
          batch.map FunctionCall.name := by
  intro handlers batch
  induction batch with
  | nil => intro _; exact ⟨rfl, rfl⟩
  | cons fc rest ih =>
    intro h
    have hrest := ih fun x hx => h x (List.mem_cons_of_mem fc hx)
    cases hh : handlers fc.name with
    | none => simpa [dispatchToolCallsV1, hh] using hrest
    | some o =>
      cases o with
      | ok v => simpa [dispatchToolCallsV1, hh] using hrest
      | thrown m => exact absurd hh (h fc (List.mem_cons_self fc rest) m)

/-- Claim C5 (amended): when every named handler returns without
throwing, the first-App dispatcher sends exactly one tool result per
invocation, in batch order, matched by id and name — an invocation whose
name is not in the registry still gets exactly one (undefined-payload)
response; and, for unique invocation ids, each id occurs in exactly one
response.  The part_005 dispatcher guarantees the same only when every
name is non-empty and registered with a normally-returning handler —
unknown names are silently skipped there; and in both variants a handler
that throws aborts the loop, so no result is sent for it or for the rest
of the batch. -/
theorem dispatch_exactly_one_result_per_id :
    (∀ (handlers : String → Option ToolOutcome) (batch : List FunctionCall),
      (∀ fc ∈ batch, ∀ m, handlers fc.name ≠ some (.thrown m)) →
      ((dispatchToolCallsV1 handlers batch).map ToolResponse.id =
          batch.map FunctionCall.id ∧
        ((batch.map FunctionCall.id).Nodup → ∀ fc ∈ batch,
          ((dispatchToolCallsV1 handlers batch).filter
            (fun r => r.id = fc.id)).length = 1))) ∧
    (∀ (handlers : String → Option ToolOutcome) (batch : List FunctionCall),
      (∀ fc ∈ batch, fc.name ≠ "" ∧ ∃ v, handlers fc.name = some (.ok v)) →
      (dispatchToolCallsP5 handlers batch).map ToolResponse.id =
        batch.map FunctionCall.id) := by
  constructor
  · intro handlers batch h
    obtain ⟨hid, _⟩ := dispatchV1_ids handlers batch h
    refine ⟨hid, ?_⟩
    intro hnd fc hfc
    rw [filter_map_id_length, hid]
    exact filter_id_count_one _ _ hnd (List.mem_map_of_mem _ hfc)
  · intro handlers batch
    induction batch with
    | nil => intro _; rfl
    | cons fc rest ih =>
      intro h
      obtain ⟨hne, v, hv⟩ := h fc (List.mem_cons_self fc rest)
      have hrest := ih fun x hx => h x (List.mem_cons_of_mem fc hx)
      simpa [dispatchToolCallsP5, hne, hv] using hrest

/-- Concrete instance of the amended claim C5: a two-call batch with
registered, normally-returning handlers produces exactly the two matching
responses, one per id. -/
theorem dispatch_exactly_one_result_per_id_witness :
    (∀ fc ∈ [(⟨"t1", "get_doctors"⟩ : FunctionCall), ⟨"t2", "hang_up"⟩],
      ∀ m, (fun _ => some (ToolOutcome.ok "SUCCESS")) fc.name ≠ some (.thrown m)) ∧
      ((dispatchToolCallsV1 (fun _ => some (ToolOutcome.ok "SUCCESS"))
          [⟨"t1", "get_doctors"⟩, ⟨"t2", "hang_up"⟩]).map ToolResponse.id =
        ([⟨"t1", "get_doctors"⟩, ⟨"t2", "hang_up"⟩] :
          List FunctionCall).map FunctionCall.id ∧
        ((([⟨"t1", "get_doctors"⟩, ⟨"t2", "hang_up"⟩] :
            List FunctionCall).map FunctionCall.id).Nodup →
          ∀ fc ∈ [(⟨"t1", "get_doctors"⟩ : FunctionCall), ⟨"t2", "hang_up"⟩],
          ((dispatchToolCallsV1 (fun _ => some (ToolOutcome.ok "SUCCESS"))
              [⟨"t1", "get_doctors"⟩, ⟨"t2", "hang_up"⟩]).filter
            (fun r => r.id = fc.id)).length = 1)) :=
  ⟨by intro fc hfc m; simp, dispatch_exactly_one_result_per_id.1
    (fun _ => some (ToolOutcome.ok "SUCCESS"))
    [⟨"t1", "get_doctors"⟩, ⟨"t2", "hang_up"⟩] (by intro fc hfc m; simp)⟩

/-! ## Deferred hang-up (src/App.tsx lines 1016-1023 and 1106-1115)

In the third App variant the `hang_up` handler sets `hangupPendingRef`,
arms a 5000 ms fallback timer whose callback calls `stopAssistant()` if
the flag is still set, and returns a success string; each playback
buffer's `onended` callback deletes the buffer from `sourcesRef` and,
when the set has become empty with the flag set, calls `stopAssistant()`.
`stopAssistant` (lines 897-936) stops and clears all tracked sources and
clears the flag.  The model keeps exactly the fields this mechanism
reads and writes: the tracked source set, the pending flag, and whether
the release sequence has run (`torn`). -/

structure HangupState where
  sources : List Nat
  hangupPending : Bool
  torn : Bool
deriving DecidableEq

inductive PlaybackEvent
  | ended (src : Nat)
  | hangupTimeout
deriving DecidableEq

def hangupStep (s : HangupState) (e : PlaybackEvent) : HangupState :=
  match e with
  | .ended src =>
    let rest := s.sources.erase src
    if rest = [] ∧ s.hangupPending = true then
      { sources := [], hangupPending := false, torn := true }
    else
      { s with sources := rest }
  | .hangupTimeout =>
    if s.hangupPending = true then
      { sources := [], hangupPending := false, torn := true }
    else s

def hangUpHandler (s : HangupState) : HangupState × String :=
  ({ s with hangupPending := true }, "SUCCESS: Hanging up after message.")

def runEvents (s : HangupState) (es : List PlaybackEvent) : HangupState :=
  es.foldl hangupStep s

theorem runEvents_take_succ :
    ∀ (es : List PlaybackEvent) (s : HangupState) (i : Nat), i < es.length →
      runEvents s (es.take (i + 1)) =
        hangupStep (runEvents s (es.take i)) (es.getD i (.ended 0)) := by
  intro es
  induction es with
  | nil => intro s i h; simp at h
  | cons e rest ih =>
    intro s i h
    cases i with
    | zero => simp [runEvents]
    | succ j =>
      have hj : j < rest.length := by simpa using h
      simpa [runEvents] using ih (hangupStep s e) j hj

theorem hangupStep_torn (s : HangupState) (e : PlaybackEvent)
    (h0 : s.torn = false) (h1 : (hangupStep s e).torn = true) :
    e = .hangupTimeout ∨ (hangupStep s e).sources = [] := by
  cases e with
  | ended src =>
    right
    by_cases hc : (s.sources.erase src = [] ∧ s.hangupPending = true)
    · simp [hangupStep, hc]
    · rw [hangupStep] at h1
      rw [if_neg hc] at h1
      rw [h0] at h1
      simp at h1
  | hangupTimeout => exact Or.inl rfl

/-- Claim C6: the `hang_up` handler synchronously returns a success
result without starting teardown (the tracked set and the torn flag are
untouched), and release begins only at an event that either empties the
tracked-buffer set or is the bounded fallback timeout: along any event
sequence, if the release sequence runs at step i, that step is the
fallback-timeout firing or leaves the tracked set empty. -/
theorem hangup_deferred_teardown :
    (∀ s : HangupState,
      (hangUpHandler s).2 = "SUCCESS: Hanging up after message." ∧
      (hangUpHandler s).1.torn = s.torn ∧
      (hangUpHandler s).1.sources = s.sources) ∧
    (∀ (s : HangupState) (es : List PlaybackEvent) (i : Nat), i < es.length →
      (runEvents s (es.take i)).torn = false →
      (runEvents s (es.take (i + 1))).torn = true →
      (es.getD i (.ended 0) = .hangupTimeout ∨
        (runEvents s (es.take (i + 1))).sources = [])) := by
  constructor
  · intro s
    exact ⟨rfl, rfl, rfl⟩
  · intro s es i hi h0 h1
    rw [runEvents_take_succ es s i hi] at h1 ⊢
    exact hangupStep_torn _ _ h0 h1

/-- Concrete instance: `hang_up` invoked with two buffers still tracked
(pending flag set); after the first completion teardown has not begun,
and the step at which it begins (the second completion) leaves the
tracked set empty. -/
theorem hangup_deferred_teardown_witness :
    (1 : Nat) < [PlaybackEvent.ended 5, PlaybackEvent.ended 7].length ∧
    (runEvents ⟨[5, 7], true, false⟩
        ([PlaybackEvent.ended 5, PlaybackEvent.ended 7].take 1)).torn = false ∧
    (runEvents ⟨[5, 7], true, false⟩
        ([PlaybackEvent.ended 5, PlaybackEvent.ended 7].take 2)).torn = true ∧
    ([PlaybackEvent.ended 5, PlaybackEvent.ended 7].getD 1 (.ended 0) = .hangupTimeout ∨
      (runEvents ⟨[5, 7], true, false⟩
        ([PlaybackEvent.ended 5, PlaybackEvent.ended 7].take 2)).sources = []) :=
  ⟨by decide, by decide, by decide,
    hangup_deferred_teardown.2 ⟨[5, 7], true, false⟩
      [PlaybackEvent.ended 5, PlaybackEvent.ended 7] 1
      (by decide) (by decide) (by decide)⟩

/-! ## Interrupted handling (src/unnamed/part_005 lines 286-291)

On `message.serverContent?.interrupted` the handler stops every tracked
source, clears `sourcesRef`, sets `nextStartTimeRef.current = 0` and the
bot state to listening.  The second component of `onInterrupted` is the
list of sources that receive `stop()`. -/

structure P5SchedState where
  sources : List Nat
  nextStartTime : ℚ
  botState : BotState
deriving DecidableEq

def onInterrupted (s : P5SchedState) : P5SchedState × List Nat :=
  (⟨[], 0, .listening⟩, s.sources)

/-- Counterexample to claim C7 as stated: on an interrupt arriving at
current time 5 with `nextStartTime = 7`, the handler resets
`nextStartTime` to 0, not to the current time 5 — the claim that
`lastScheduledEnd` is reset to `now` fails. -/
theorem interrupted_resets_to_zero_not_now :
    ¬ ((onInterrupted ⟨[3], 7, .speaking⟩).1.sources = [] ∧
       (onInterrupted ⟨[3], 7, .speaking⟩).1.nextStartTime = 5 ∧
       (onInterrupted ⟨[3], 7, .speaking⟩).1.botState = .listening) := by
  intro h
  have h2 := h.2.1
  norm_num [onInterrupted] at h2

/-- Claim C7 (amended): on `Interrupted` the scheduler immediately stops
and discards every tracked buffer (the tracked set becomes empty), the
phase becomes listening independent of drain, and `nextStartTime` is
reset to 0 rather than to the current time — which is equivalent for all
subsequent scheduling, since each start time is
`max(now, nextStartTime)` and the current time is non-negative. -/
theorem interrupted_flush (s : P5SchedState) (now : ℚ) (h : 0 ≤ now) :
    (onInterrupted s).1.sources = [] ∧
    (onInterrupted s).2 = s.sources ∧
    (onInterrupted s).1.nextStartTime = 0 ∧
    (onInterrupted s).1.botState = .listening ∧
    max ((onInterrupted s).1.nextStartTime) now = now := by
  refine ⟨rfl, rfl, rfl, rfl, ?_⟩
  simpa [onInterrupted] using max_eq_right h

/-- Concrete instance of the amended claim C7 at current time 3 with two
tracked buffers. -/
theorem interrupted_flush_witness :
    (0 : ℚ) ≤ 3 ∧
      ((onInterrupted ⟨[1, 2], 7, .speaking⟩).1.sources = [] ∧
       (onInterrupted ⟨[1, 2], 7, .speaking⟩).2 = [1, 2] ∧
       (onInterrupted ⟨[1, 2], 7, .speaking⟩).1.nextStartTime = 0 ∧
       (onInterrupted ⟨[1, 2], 7, .speaking⟩).1.botState = .listening ∧
       max ((onInterrupted ⟨[1, 2], 7, .speaking⟩).1.nextStartTime) 3 = 3) :=
  ⟨by norm_num, interrupted_flush ⟨[1, 2], 7, .speaking⟩ 3 (by norm_num)⟩
